import Mathlib

/-!
Shallow embedding of the A-Prime.ai chat client's session/message
synchronization core (frontend `App.js`) and of the `ChatMessage`
rendering component, together with theorems settling the frozen claims.

Remote HTTP calls are modelled by oracle records: each call's decoded
result is `some v`, and `none` stands for a network or JSON-decode
failure (the `catch` branch of the source).  Each operation returns the
resulting component state together with the list of remote calls it
issued, in order.
-/

namespace APrime

/-! ## JS string primitives used by the source (startsWith, includes, trim) -/

/-- Prefix test on char lists: `isPrefixL p s` holds when `p` is a prefix of `s`. -/
def isPrefixL : List Char → List Char → Bool
  | [], _ => true
  | _ :: _, [] => false
  | a :: as, b :: bs => if a = b then isPrefixL as bs else false

/-- Substring test: `containsSub n s` holds when `n` occurs contiguously in `s`
(JS `String.prototype.includes`). -/
def containsSub (needle : List Char) : List Char → Bool
  | [] => isPrefixL needle []
  | c :: rest => isPrefixL needle (c :: rest) || containsSub needle rest

/-- JS `String.prototype.startsWith`. -/
def startsWithS (p s : String) : Bool := isPrefixL p.data s.data

/-- JS `String.prototype.includes`. -/
def includesS (needle s : String) : Bool := containsSub needle.data s.data

/-- The characters removed by JS `String.prototype.trim`
(ECMAScript WhiteSpace and LineTerminator code points). -/
def isJsWhitespace (c : Char) : Bool :=
  c = ' ' || c = '\t' || c = '\n' || c = '\r' ||
  c = Char.ofNat 11 || c = Char.ofNat 12 || c = Char.ofNat 160 ||
  c = Char.ofNat 0x1680 || (0x2000 ≤ c.toNat && c.toNat ≤ 0x200A) ||
  c = Char.ofNat 0x2028 || c = Char.ofNat 0x2029 || c = Char.ofNat 0x202F ||
  c = Char.ofNat 0x205F || c = Char.ofNat 0x3000 || c = Char.ofNat 0xFEFF

/-- JS `String.prototype.trim`. -/
def jsTrim (s : String) : String :=
  String.mk (((s.data.dropWhile isJsWhitespace).reverse.dropWhile isJsWhitespace).reverse)

/-! ## Data model (`App.js` component state, spec section 3) -/

inductive Role
  | user
  | assistant
deriving DecidableEq

/-- A chat message as held in the `messages` state array.  The flags
default to absent/false in the source objects; here all three are always
present, with `false` standing for a missing field. -/
structure Message where
  id : Nat
  role : Role
  text : String
  isImage : Bool
  isCode : Bool
  isError : Bool
deriving DecidableEq

/-- A session as returned by `GET /api/sessions`. -/
structure Session where
  id : String
  title : String
  lastModified : Nat
deriving DecidableEq

/-- The `App` component state relevant to the synchronization core.
Presentation-only state (theme, sidebar-open flag, scroll ref) is omitted.
`sessionId = none` models the JS `null`. -/
structure AppState where
  messages : List Message
  input : String
  isLoading : Bool
  sessionId : Option String
  sessions : List Session
deriving DecidableEq

/-- The remote endpoints of the backend API, as issued by the client. -/
inductive ApiCall
  | getSessions
  | getChatHistory (sid : String)
  | postNewChat
  | postChat (message : String) (sid : String)
  | deleteSession (sid : String)
deriving DecidableEq

/-- Decoded body of a `POST /api/chat` response. `new_title` is `none`
when the field is absent. -/
structure ChatResponse where
  response : String
  new_title : Option String
deriving DecidableEq

/-! ## API and session functions (`App.js` lines 51-194) -/

/-- Embedding of `fetchSessions` (App.js lines 51-61): on success stores the decoded
list in `sessions` and returns it; on failure leaves state untouched and
returns the empty list.  Result: (new state, returned list, calls). -/
def fetchSessionsRun (st : AppState) (r : Option (List Session)) :
    AppState × List Session × List ApiCall :=
  match r with
  | some data => ({ st with sessions := data }, data, [.getSessions])
  | none => (st, [], [.getSessions])

/-- Embedding of `fetchMessages` (App.js lines 64-80): with a null session id, clears
`messages` and issues no call; otherwise fetches the history, storing the
decoded list (or `[]` on failure) and ending with `isLoading = false`. -/
def fetchMessagesRun (st : AppState) (currentSessionId : Option String)
    (r : Option (List Message)) : AppState × List ApiCall :=
  match currentSessionId with
  | none => ({ st with messages := [] }, [])
  | some sid =>
    match r with
    | some data => ({ st with messages := data, isLoading := false }, [.getChatHistory sid])
    | none => ({ st with messages := [], isLoading := false }, [.getChatHistory sid])

/-- Oracle for `startNewChat`: the `POST /api/new_chat` result and the
subsequent `GET /api/sessions` refresh result. -/
structure NewChatEnv where
  newChat : Option String
  refresh : Option (List Session)
deriving DecidableEq

/-- Embedding of `startNewChat` (App.js lines 83-95): on success sets the new session
active, clears messages and input, then refreshes the session list; on
failure (fetch or decode throw) state is untouched. -/
def startNewChat (st : AppState) (env : NewChatEnv) : AppState × List ApiCall :=
  match env.newChat with
  | none => (st, [.postNewChat])
  | some sid =>
    let st1 : AppState := { st with sessionId := some sid, messages := [], input := "" }
    let fs := fetchSessionsRun st1 env.refresh
    (fs.1, .postNewChat :: fs.2.2)

/-- Oracle for `sendMessage`: the optional `POST /api/new_chat` result
(used only when no session is active), the `POST /api/chat` result, and
the trailing `GET /api/sessions` refresh result. -/
structure SendEnv where
  newChat : Option String
  chat : Option ChatResponse
  refresh : Option (List Session)
deriving DecidableEq

/-- The locally synthesized error text of App.js line 149 (the literal
contains the code point 39 after "couldn"). -/
def sendFailText : String :=
  "Sorry, I couldn" ++ String.mk [Char.ofNat 39] ++ "t get a response. Please try again."

/-- The assistant message appended on `POST /api/chat` success
(App.js lines 134-140), with its image/code classification. -/
def mkAssistantMessage (id : Nat) (resp : String) : Message :=
  { id := id, role := .assistant, text := resp,
    isImage := startsWithS "data:image/" resp,
    isCode := includesS "```" resp,
    isError := false }

/-- The error-flagged assistant message appended on `POST /api/chat`
failure (App.js lines 146-151). -/
def mkErrorMessage (id : Nat) : Message :=
  { id := id, role := .assistant, text := sendFailText,
    isImage := false, isCode := false, isError := true }

/-- Title patch of App.js lines 129-131. -/
def patchTitle (sessions : List Session) (sid : String) (t : String) : List Session :=
  sessions.map fun s => if s.id = sid then { s with title := t } else s

/-- The body of `sendMessage` from the `POST /api/chat` call on
(App.js lines 120-154), entered with the session id already resolved.
`if (data.new_title)` is a JS truthiness test, so an empty-string title
does not patch. -/
def sendCore (now : Nat) (st : AppState) (sid : String) (msgText : String)
    (env : SendEnv) (calls : List ApiCall) : AppState × List ApiCall :=
  match env.chat with
  | none =>
      ({ st with messages := st.messages ++ [mkErrorMessage (now + 1)], isLoading := false },
       calls ++ [.postChat msgText sid])
  | some data =>
      let st1 : AppState :=
        match data.new_title with
        | some t => if t = "" then st else { st with sessions := patchTitle st.sessions sid t }
        | none => st
      let st2 : AppState :=
        { st1 with messages := st1.messages ++ [mkAssistantMessage (now + 1) data.response] }
      let st3 : AppState :=
        match env.refresh with
        | some ss => { st2 with sessions := ss }
        | none => st2
      ({ st3 with isLoading := false }, calls ++ [.postChat msgText sid, .getSessions])

/-- Embedding of `sendMessage` (App.js lines 98-155).  `now` stands for `Date.now()`
(the optimistic user message id; the assistant message gets `now + 1`). -/
def sendMessage (now : Nat) (st : AppState) (env : SendEnv) : AppState × List ApiCall :=
  if jsTrim st.input = "" then (st, [])
  else
    let userMessage : Message :=
      { id := now, role := .user, text := st.input,
        isImage := false, isCode := false, isError := false }
    let st1 : AppState :=
      { st with messages := st.messages ++ [userMessage], input := "", isLoading := true }
    match st.sessionId with
    | some sid => sendCore now st1 sid userMessage.text env []
    | none =>
      match env.newChat with
      | none => ({ st1 with isLoading := false }, [.postNewChat])
      | some sid =>
          sendCore now { st1 with sessionId := some sid } sid userMessage.text env
            [.postNewChat]

/-- Oracle for `handleDeleteSession`: whether the DELETE responded ok
(a thrown error has the same state effect as a non-ok status), the
refresh after deletion, and the `startNewChat` oracles used when no
session remains. -/
structure DeleteEnv where
  deleteOk : Bool
  refresh1 : Option (List Session)
  newChat : Option String
  refresh2 : Option (List Session)
deriving DecidableEq

/-- Embedding of `handleDeleteSession` (App.js lines 159-175): on ok DELETE, re-fetch
sessions; if the deleted session was active, activate the first of the
refreshed list, or start a new chat when it is empty.  Otherwise state is
untouched. -/
def handleDeleteSession (st : AppState) (sid : String) (env : DeleteEnv) :
    AppState × List ApiCall :=
  if env.deleteOk then
    let fs := fetchSessionsRun st env.refresh1
    if st.sessionId = some sid then
      match fs.2.1 with
      | s :: _ => ({ fs.1 with sessionId := some s.id }, .deleteSession sid :: fs.2.2)
      | [] =>
          let nc := startNewChat fs.1 { newChat := env.newChat, refresh := env.refresh2 }
          (nc.1, .deleteSession sid :: fs.2.2 ++ nc.2)
    else (fs.1, .deleteSession sid :: fs.2.2)
  else (st, [.deleteSession sid])

/-- Oracle for the startup path: the initial session fetch, the
`startNewChat` oracles for the empty case, and the history fetched by
the `useEffect` on `sessionId`. -/
structure InitEnv where
  sessions : Option (List Session)
  newChat : Option String
  refresh2 : Option (List Session)
  history : Option (List Message)
deriving DecidableEq

/-- Embedding of `loadInitialData` (App.js lines 180-190): fetch all sessions; if
non-empty, activate the first (the backend returns them sorted by
recency); otherwise start a new chat. -/
def loadInitialData (st : AppState) (env : InitEnv) : AppState × List ApiCall :=
  let fs := fetchSessionsRun st env.sessions
  match fs.2.1 with
  | s :: _ => ({ fs.1 with sessionId := some s.id }, fs.2.2)
  | [] =>
      let nc := startNewChat fs.1 { newChat := env.newChat, refresh := env.refresh2 }
      (nc.1, fs.2.2 ++ nc.2)

/-- The `useEffect` on `[sessionId]` (App.js lines 192-194): it runs
`fetchMessages(sessionId)` after the active session id changes. -/
def sessionEffect (st : AppState) (r : Option (List Message)) : AppState × List ApiCall :=
  fetchMessagesRun st st.sessionId r

/-- Startup = the mount effect `loadInitialData` followed by the
`sessionId` effect it triggers. -/
def startup (st : AppState) (env : InitEnv) : AppState × List ApiCall :=
  let ld := loadInitialData st env
  let ef := sessionEffect ld.1 env.history
  (ef.1, ld.2 ++ ef.2)

/-! ## Concrete fixtures used by witnesses -/

/-- A state with an active session and whitespace-only input. -/
def stBlank : AppState :=
  { messages := [], input := "  \t ", isLoading := false,
    sessionId := some "s1", sessions := [{ id := "s1", title := "New Chat", lastModified := 7 }] }

/-- A state with an active session `s1` and the pending input "hi". -/
def stHi : AppState :=
  { messages := [], input := "hi", isLoading := false,
    sessionId := some "s1", sessions := [{ id := "s1", title := "New Chat", lastModified := 7 }] }

/-- A state with no active session and the pending input "hi". -/
def stNoSession : AppState :=
  { messages := [], input := "hi", isLoading := false, sessionId := none, sessions := [] }

/-- An all-failing `sendMessage` oracle. -/
def envAllFail : SendEnv := { newChat := none, chat := none, refresh := none }

/-! ## ChatMessage rendering (part_001, claim C7)

Rendering is an image when `isImage` is set; otherwise, when `isCode`
is set, the text is matched against the fence regex of part_001 line 69
(an opening three-backtick fence, a lazy dot-group, a literal newline, a
lazy any-character group, a newline, a closing fence), taking group 1 as
the language and group 2 as the code, with the fallbacks
`language = "text"` and `code = ""` when there is no match; otherwise a
plain paragraph is rendered.  The regex semantics embedded below: the
match starts at the leftmost position from which the whole pattern can
match; the dot of the lazy group 1 matches no line terminator, so group 1
is forced to end at the first line terminator after the opening fence,
which the literal requires to be a newline; the lazy group 2 ends at the
first following occurrence of a newline-plus-closing-fence. -/

/-- The backtick character (code point 96). -/
def btk : Char := Char.ofNat 96

/-- The three-backtick fence literal of the regex. -/
def fenceTicks : List Char := [btk, btk, btk]

/-- Lazy group 2: the text up to the first occurrence of the closing
`"\n" ++ fenceTicks`; `none` when no closing fence follows. -/
def takeToClose : List Char → Option (List Char)
  | [] => none
  | c :: rest =>
      if c = '\n' ∧ isPrefixL fenceTicks rest = true then some []
      else (takeToClose rest).map fun body => c :: body

/-- Line terminators of the JS regex dot (ECMAScript LineTerminator):
newline, carriage return, line separator, paragraph separator. -/
def isLineTerm (c : Char) : Bool :=
  c = '\n' || c = '\r' || c = Char.ofNat 0x2028 || c = Char.ofNat 0x2029

/-- Attempt the match right after an opening fence: group 1 is the text
up to the first line terminator, which the pattern requires to be a
newline (the pattern fails here otherwise), group 2 the text up to the
closing fence. -/
def matchAt (cs : List Char) : Option (List Char × List Char) :=
  let lang := cs.takeWhile fun c => !isLineTerm c
  match cs.dropWhile fun c => !isLineTerm c with
  | [] => none
  | c :: afterNl =>
      if c = '\n' then
        match takeToClose afterNl with
        | some body => some (lang, body)
        | none => none
      else none

/-- Leftmost regex match: slide over the text; at each position where an
opening fence starts, try the rest of the pattern, else keep sliding. -/
def fenceFirst : List Char → Option (List Char × List Char)
  | [] => none
  | c :: rest =>
      if isPrefixL fenceTicks (c :: rest) = true then
        match matchAt (rest.drop 2) with
        | some r => some r
        | none => fenceFirst rest
      else fenceFirst rest

/-- What `ChatMessage` renders (the props handed to the chosen child). -/
inductive Rendered
  | image (src : String)
  | codeBlock (language : String) (body : String)
  | plain (cls : String) (text : String)
deriving DecidableEq

/-- Model of `CodeBlock` line 31: an empty language prop displays as "text". -/
def langToShow (language : String) : String :=
  if language = "" then "text" else language

/-- Embedding of `ChatMessage` (part_001 lines 52-89). -/
def renderMessage (m : Message) : Rendered :=
  if m.isImage then .image m.text
  else if m.isCode then
    match fenceFirst m.text.data with
    | some lb => .codeBlock (String.mk lb.1) (String.mk lb.2)
    | none => .codeBlock "text" ""
  else .plain (match m.role with | .user => "user" | .assistant => "bot") m.text

/-! ## Active-session invariant (claim C9)

Abstraction of the component at the granularity of `sessionId` updates:
`issued` records the session ids for which a `GET /api/chat_history/...`
was issued.  In the source every write of a non-null `sessionId` —
`handleSessionClick` (line 30), `startNewChat` (line 87), the mid-send
creation (line 112), `handleDeleteSession` (line 166) and
`loadInitialData` (line 184) — is followed by the `useEffect` on
`[sessionId]` (lines 192-194), which runs `fetchMessages` for the new
value; the effect re-runs only when the value changed.  Operations that
do not write `sessionId` do not change this abstraction. -/

structure UiTrace where
  sessionId : Option String
  issued : List String
deriving DecidableEq

/-- A `setSessionId sid` together with the `useEffect` it triggers. -/
def setActive (t : UiTrace) (sid : String) : UiTrace :=
  if t.sessionId = some sid then t
  else { sessionId := some sid, issued := t.issued ++ [sid] }

/-- States of the abstraction reachable from mount. -/
inductive Reach : UiTrace → Prop
  | mount : Reach { sessionId := none, issued := [] }
  | sessionClick (t : UiTrace) (sid : String) : Reach t → Reach (setActive t sid)
  | newChatSuccess (t : UiTrace) (sid : String) : Reach t → Reach (setActive t sid)
  | sendCreatesSession (t : UiTrace) (sid : String) :
      Reach t → t.sessionId = none → Reach (setActive t sid)
  | deleteActivates (t : UiTrace) (sid : String) : Reach t → Reach (setActive t sid)
  | initActivates (t : UiTrace) (sid : String) : Reach t → Reach (setActive t sid)

/-! ## Stale-fetch race (claim C1)

Event-interleaving model of `fetchMessages` resolutions.  A
`switchSession` sets the active id and issues a history fetch (the
`useEffect` of lines 192-194); a resolution stores the decoded list into
`messages` unconditionally (App.js line 73) — the source contains no
check that the fetch's session id is still the active one. -/

structure RaceState where
  sessionId : Option String
  messages : List Message
  pending : List (Nat × String)
deriving DecidableEq

inductive RaceEvent
  | switchSession (sid : String) (rid : Nat)
  | resolveOk (rid : Nat) (data : List Message)
deriving DecidableEq

def raceStep (s : RaceState) (e : RaceEvent) : RaceState :=
  match e with
  | .switchSession sid rid =>
      { s with sessionId := some sid, pending := s.pending ++ [(rid, sid)] }
  | .resolveOk rid data =>
      if s.pending.any fun p => p.1 == rid then
        { s with messages := data, pending := s.pending.filter fun p => p.1 != rid }
      else s

def raceRun (s : RaceState) (es : List RaceEvent) : RaceState := es.foldl raceStep s

/-- Messages of session A and of session B, distinct. -/
def msgsA : List Message :=
  [{ id := 1, role := .assistant, text := "from A",
     isImage := false, isCode := false, isError := false }]

def msgsB : List Message :=
  [{ id := 2, role := .assistant, text := "from B",
     isImage := false, isCode := false, isError := false }]

/-- The failing interleaving: switch to A (fetch 1 in flight), switch to
B (fetch 2), fetch 2 resolves with B's messages, then the stale fetch 1
resolves with A's messages. -/
def raceTrace : List RaceEvent :=
  [.switchSession "A" 1, .switchSession "B" 2, .resolveOk 2 msgsB, .resolveOk 1 msgsA]

/-- Refreshed session list returned by the trailing `GET /api/sessions`
in the C3 witness. -/
def sessRefreshed : List Session := [{ id := "s1", title := "Greeting", lastModified := 8 }]

/-- A fully succeeding `sendMessage` oracle. -/
def envSendOk : SendEnv :=
  { newChat := none,
    chat := some { response := "ok", new_title := some "Greeting" },
    refresh := some sessRefreshed }

/-- State used by the C5 witness: session `s1` is the only one and is
active. -/
def stOnly : AppState :=
  { messages := [{ id := 1, role := .user, text := "old",
                   isImage := false, isCode := false, isError := false }],
    input := "", isLoading := false,
    sessionId := some "s1",
    sessions := [{ id := "s1", title := "Old", lastModified := 3 }] }

/-- Delete oracle for the C5 witness: the DELETE succeeds, the refresh
finds no session left, and the subsequent new chat creates `s2`. -/
def envDeleteOnly : DeleteEnv :=
  { deleteOk := true, refresh1 := some [], newChat := some "s2",
    refresh2 := some [{ id := "s2", title := "New Chat", lastModified := 9 }] }

/-- Blank initial component state (App.js lines 10-14). -/
def stInit : AppState :=
  { messages := [], input := "", isLoading := false, sessionId := none, sessions := [] }

/-- Two sessions, recency-sorted, for the C6 witness. -/
def sessA : Session := { id := "a", title := "A", lastModified := 10 }

def sessB : Session := { id := "b", title := "B", lastModified := 4 }

/-- Startup oracle for the C6 witness: two sessions exist and the
history fetch of the first returns no messages. -/
def envInitTwo : InitEnv :=
  { sessions := some [sessA, sessB], newChat := none, refresh2 := none,
    history := some [] }

/-! ## Theorems for the claims about sendMessage -/

/-- Claim C2: for every input string whose trim is empty, `sendMessage`
is a no-op — messages, sessions, active session id, input field and
loading flag are all unchanged and no remote call is issued. -/
theorem claim_C2_empty_input_noop (now : Nat) (st : AppState) (env : SendEnv)
    (h : jsTrim st.input = "") :
    sendMessage now st env = (st, []) := by
  simp [sendMessage, h]

/-- Witness for C2 at a concrete whitespace-only input. -/
theorem claim_C2_witness :
    jsTrim stBlank.input = "" ∧ sendMessage 5 stBlank envAllFail = (stBlank, []) :=
  ⟨by decide, claim_C2_empty_input_noop 5 stBlank envAllFail (by decide)⟩

/-- Claim C10: when no session is active and the preliminary
`POST /api/new_chat` fails, `sendMessage` returns with the optimistic
user message appended, the input cleared, the loading flag reset, no
assistant message appended, and only the new-chat call issued. -/
theorem claim_C10_newchat_failure (now : Nat) (st : AppState) (env : SendEnv)
    (hinput : jsTrim st.input ≠ "") (hsid : st.sessionId = none)
    (hnc : env.newChat = none) :
    sendMessage now st env =
      ({ st with
          messages := st.messages ++
            [{ id := now, role := .user, text := st.input,
               isImage := false, isCode := false, isError := false }],
          input := "", isLoading := false },
       [.postNewChat]) := by
  simp [sendMessage, hinput, hsid, hnc]

/-- Witness for C10 at a concrete no-session state with failing oracle. -/
theorem claim_C10_witness :
    sendMessage 5 stNoSession envAllFail =
      ({ stNoSession with
          messages := [{ id := 5, role := .user, text := "hi",
                         isImage := false, isCode := false, isError := false }],
          input := "", isLoading := false },
       [.postNewChat]) :=
  claim_C10_newchat_failure 5 stNoSession envAllFail (by decide) rfl rfl

/-- Claim C4: for every non-whitespace input, when the `POST /api/chat`
call fails, `sendMessage` appends exactly one error-flagged assistant
message after the optimistic user message, leaves the session list
unchanged, and does not refresh the session list (no `GET /api/sessions`
is issued) — in both the active-session path and the path that first
created a session. -/
theorem claim_C4_chat_failure (now : Nat) (st : AppState) (env : SendEnv)
    (hinput : jsTrim st.input ≠ "") (hchat : env.chat = none) :
    (∀ sid, st.sessionId = some sid →
      sendMessage now st env =
        ({ st with
            messages := st.messages ++
              [{ id := now, role := .user, text := st.input,
                 isImage := false, isCode := false, isError := false },
               mkErrorMessage (now + 1)],
            input := "", isLoading := false },
         [.postChat st.input sid])) ∧
    (∀ sid, st.sessionId = none → env.newChat = some sid →
      sendMessage now st env =
        ({ st with
            messages := st.messages ++
              [{ id := now, role := .user, text := st.input,
                 isImage := false, isCode := false, isError := false },
               mkErrorMessage (now + 1)],
            input := "", isLoading := false, sessionId := some sid },
         [.postNewChat, .postChat st.input sid])) := by
  constructor
  · intro sid hsid
    simp [sendMessage, sendCore, hinput, hsid, hchat]
  · intro sid hsid hnc
    simp [sendMessage, sendCore, hinput, hsid, hnc, hchat]

/-- Witness for C4: a concrete failing send in an active session. -/
theorem claim_C4_witness :
    sendMessage 5 stHi envAllFail =
      ({ stHi with
          messages := [{ id := 5, role := .user, text := "hi",
                         isImage := false, isCode := false, isError := false },
                       mkErrorMessage 6],
          input := "", isLoading := false },
       [.postChat "hi" "s1"]) :=
  (claim_C4_chat_failure 5 stHi envAllFail (by decide) rfl).1 "s1" rfl

/-- Claim C3: for every non-whitespace input, when `POST /api/chat`
succeeds the message list ends with the optimistic user message carrying
the input text followed by exactly one assistant message whose `isImage`
flag holds exactly when the response starts with "data:image/" and whose
`isCode` flag holds exactly when the response contains a triple-backtick
fence; a non-empty `new_title` is patched into the session list (visible
as the final list when the trailing refresh fails), the refreshed list is
the final one when the refresh succeeds, and the refresh call is issued. -/
theorem claim_C3_send_success (now : Nat) (st : AppState) (env : SendEnv)
    (cs : String) (data : ChatResponse)
    (hinput : jsTrim st.input ≠ "") (hchat : env.chat = some data)
    (hcur : st.sessionId = some cs ∨ (st.sessionId = none ∧ env.newChat = some cs)) :
    ((sendMessage now st env).1.messages =
        st.messages ++
          [{ id := now, role := .user, text := st.input,
             isImage := false, isCode := false, isError := false },
           mkAssistantMessage (now + 1) data.response]) ∧
    ((mkAssistantMessage (now + 1) data.response).isImage =
        startsWithS "data:image/" data.response ∧
     (mkAssistantMessage (now + 1) data.response).isCode =
        includesS "```" data.response) ∧
    (∀ ss, env.refresh = some ss → (sendMessage now st env).1.sessions = ss) ∧
    (env.refresh = none → ∀ t, data.new_title = some t → t ≠ "" →
        (sendMessage now st env).1.sessions = patchTitle st.sessions cs t) ∧
    ApiCall.getSessions ∈ (sendMessage now st env).2 := by
  obtain ⟨nc, chat, refresh⟩ := env
  obtain ⟨resp, nt⟩ := data
  simp only at hchat
  subst hchat
  rcases hcur with hsid | ⟨hsid, hnc⟩
  · rcases nt with _ | t <;>
      rcases refresh with _ | ss <;>
      refine ⟨?_, ⟨rfl, rfl⟩, ?_, ?_, ?_⟩ <;>
      simp_all [sendMessage, sendCore] <;>
      split <;>
      simp_all
  · simp only at hnc
    subst hnc
    rcases nt with _ | t <;>
      rcases refresh with _ | ss <;>
      refine ⟨?_, ⟨rfl, rfl⟩, ?_, ?_, ?_⟩ <;>
      simp_all [sendMessage, sendCore] <;>
      split <;>
      simp_all


/-- Witness for C3: a concrete successful send in session `s1`. -/
theorem claim_C3_witness :
    (sendMessage 5 stHi envSendOk).1.messages =
      [{ id := 5, role := .user, text := "hi",
         isImage := false, isCode := false, isError := false },
       mkAssistantMessage 6 "ok"] ∧
    (sendMessage 5 stHi envSendOk).1.sessions = sessRefreshed ∧
    ApiCall.getSessions ∈ (sendMessage 5 stHi envSendOk).2 := by
  have h := claim_C3_send_success 5 stHi envSendOk "s1"
    { response := "ok", new_title := some "Greeting" }
    (by decide) rfl (Or.inl rfl)
  exact ⟨by simpa [stHi] using h.1, h.2.2.1 sessRefreshed rfl, h.2.2.2.2⟩

/-- Claim C5: `handleDeleteSession` — on ok DELETE the session list is
refreshed; if the deleted session was active, the first remaining session
is activated, and when none remain `startNewChat` runs, so deleting the
only session yields exactly one newly created active session with an
empty message list; on DELETE failure all state is unchanged. -/
theorem claim_C5_delete (st : AppState) (sid : String) (env : DeleteEnv) :
    (env.deleteOk = false →
      handleDeleteSession st sid env = (st, [.deleteSession sid])) ∧
    (∀ ss, env.deleteOk = true → env.refresh1 = some ss → st.sessionId ≠ some sid →
      handleDeleteSession st sid env =
        ({ st with sessions := ss }, [.deleteSession sid, .getSessions])) ∧
    (∀ s rest, env.deleteOk = true → env.refresh1 = some (s :: rest) →
        st.sessionId = some sid →
      (handleDeleteSession st sid env).1.sessionId = some s.id ∧
      (handleDeleteSession st sid env).1.sessions = s :: rest) ∧
    (∀ nid ns, env.deleteOk = true → env.refresh1 = some [] →
        st.sessionId = some sid → env.newChat = some nid → env.refresh2 = some [ns] →
      (handleDeleteSession st sid env).1.sessionId = some nid ∧
      (handleDeleteSession st sid env).1.messages = [] ∧
      (handleDeleteSession st sid env).1.sessions = [ns]) := by
  obtain ⟨ok, r1, nc, r2⟩ := env
  refine ⟨?_, ?_, ?_, ?_⟩
  · intro h
    simp only at h
    simp [handleDeleteSession, h]
  · intro ss hok hr1 hne
    simp only at hok hr1
    simp [handleDeleteSession, fetchSessionsRun, hok, hr1, hne]
  · intro s rest hok hr1 hsid
    simp only at hok hr1
    simp [handleDeleteSession, fetchSessionsRun, hok, hr1, hsid]
  · intro nid ns hok hr1 hsid hnc hr2
    simp only at hok hr1 hnc hr2
    simp [handleDeleteSession, fetchSessionsRun, startNewChat, hok, hr1, hsid, hnc, hr2]


/-- Witness for C5: deleting the only session creates one new active
session with an empty message list. -/
theorem claim_C5_witness :
    (handleDeleteSession stOnly "s1" envDeleteOnly).1.sessionId = some "s2" ∧
    (handleDeleteSession stOnly "s1" envDeleteOnly).1.messages = [] ∧
    (handleDeleteSession stOnly "s1" envDeleteOnly).1.sessions =
      [{ id := "s2", title := "New Chat", lastModified := 9 }] :=
  (claim_C5_delete stOnly "s1" envDeleteOnly).2.2.2
    "s2" { id := "s2", title := "New Chat", lastModified := 9 } rfl rfl rfl rfl rfl

/-- Heads of recency-sorted session lists carry the maximal
`lastModified`. -/
theorem sorted_head_lastModified_max (s : Session) (rest : List Session)
    (h : List.Chain' (fun a b => b.lastModified ≤ a.lastModified) (s :: rest)) :
    ∀ t ∈ s :: rest, t.lastModified ≤ s.lastModified := by
  induction rest generalizing s with
  | nil =>
      intro t ht
      simp only [List.mem_singleton] at ht
      simp [ht]
  | cons b l ih =>
      intro t ht
      rcases List.chain'_cons.mp h with ⟨hba, hc⟩
      rcases List.mem_cons.mp ht with h1 | h2
      · simp [h1]
      · exact le_trans (ih b hc t h2) hba

/-- Claim C6: the startup path fetches all sessions; when the returned
list is non-empty it activates its first element — the most recently
modified when the list is recency-sorted — and triggers a fetch of that
session's messages (which become the displayed list); when the list is
empty it performs `startNewChat`. -/
theorem claim_C6_startup (st : AppState) (env : InitEnv) :
    (∀ s rest, env.sessions = some (s :: rest) →
      (startup st env).1.sessionId = some s.id ∧
      ApiCall.getChatHistory s.id ∈ (startup st env).2 ∧
      (∀ ms, env.history = some ms → (startup st env).1.messages = ms) ∧
      (List.Chain' (fun a b => b.lastModified ≤ a.lastModified) (s :: rest) →
        ∀ t ∈ s :: rest, t.lastModified ≤ s.lastModified)) ∧
    (∀ nid, env.sessions = some [] → env.newChat = some nid →
      (startup st env).1.sessionId = some nid ∧
      ApiCall.postNewChat ∈ (startup st env).2 ∧
      ApiCall.getChatHistory nid ∈ (startup st env).2) := by
  obtain ⟨sess, nc, r2, hist⟩ := env
  constructor
  · intro s rest hs
    simp only at hs
    subst hs
    refine ⟨?_, ?_, ?_, sorted_head_lastModified_max s rest⟩
    · rcases hist with _ | ms <;>
        simp [startup, loadInitialData, sessionEffect, fetchSessionsRun, fetchMessagesRun]
    · rcases hist with _ | ms <;>
        simp [startup, loadInitialData, sessionEffect, fetchSessionsRun, fetchMessagesRun]
    · intro ms hms
      simp only at hms
      subst hms
      simp [startup, loadInitialData, sessionEffect, fetchSessionsRun, fetchMessagesRun]
  · intro nid hs hnc
    simp only at hs hnc
    subst hs
    subst hnc
    rcases hist with _ | ms <;> rcases r2 with _ | ss <;>
      simp [startup, loadInitialData, sessionEffect, startNewChat, fetchSessionsRun,
        fetchMessagesRun]


/-- Witness for C6: startup with a non-empty recency-sorted session list
activates the first session and fetches its messages. -/
theorem claim_C6_witness :
    (startup stInit envInitTwo).1.sessionId = some "a" ∧
    ApiCall.getChatHistory "a" ∈ (startup stInit envInitTwo).2 ∧
    (startup stInit envInitTwo).1.messages = [] ∧
    sessB.lastModified ≤ sessA.lastModified := by
  have h := (claim_C6_startup stInit envInitTwo).1 sessA [sessB] rfl
  exact ⟨h.1, h.2.1, h.2.2.1 [] rfl,
    h.2.2.2 (by norm_num [List.chain'_cons, sessA, sessB]) sessB (by simp)⟩

/-- Claim C8: every remote-call failure is converted at the call site
into a safe default — `fetchSessions` keeps state and returns the empty
list, `fetchMessages` stores the empty message list, `startNewChat`
leaves state untouched, `sendMessage` appends a single error-flagged
message with the session list untouched, and `handleDeleteSession`
leaves state untouched; all five remain ordinary total state
transformations, so no failure propagates. -/
theorem claim_C8_failure_fallbacks :
    (∀ st, fetchSessionsRun st none = (st, [], [.getSessions])) ∧
    (∀ st sid, fetchMessagesRun st (some sid) none =
      ({ st with messages := [], isLoading := false }, [.getChatHistory sid])) ∧
    (∀ st r, startNewChat st { newChat := none, refresh := r } = (st, [.postNewChat])) ∧
    (∀ now st env sid, jsTrim st.input ≠ "" → st.sessionId = some sid →
        env.chat = none →
      (sendMessage now st env).1.messages =
        st.messages ++
          [{ id := now, role := .user, text := st.input,
             isImage := false, isCode := false, isError := false },
           mkErrorMessage (now + 1)] ∧
      (mkErrorMessage (now + 1)).isError = true ∧
      (sendMessage now st env).1.sessions = st.sessions) ∧
    (∀ st sid r1 nc r2,
      handleDeleteSession st sid
          { deleteOk := false, refresh1 := r1, newChat := nc, refresh2 := r2 } =
        (st, [.deleteSession sid])) := by
  refine ⟨fun st => rfl, fun st sid => rfl, fun st r => rfl, ?_, ?_⟩
  · intro now st env sid hinput hsid hchat
    simp [sendMessage, sendCore, hinput, hsid, hchat, mkErrorMessage]
  · intro st sid r1 nc r2
    simp [handleDeleteSession]

/-- Witness for C8: the failing paths at concrete inputs. -/
theorem claim_C8_witness :
    fetchSessionsRun stHi none = (stHi, [], [.getSessions]) ∧
    fetchMessagesRun stHi (some "s1") none =
      ({ stHi with messages := [], isLoading := false }, [.getChatHistory "s1"]) ∧
    startNewChat stHi { newChat := none, refresh := none } = (stHi, [.postNewChat]) ∧
    (sendMessage 5 stHi envAllFail).1.sessions = stHi.sessions ∧
    handleDeleteSession stHi "s1"
        { deleteOk := false, refresh1 := none, newChat := none, refresh2 := none } =
      (stHi, [.deleteSession "s1"]) := by
  have h := claim_C8_failure_fallbacks
  exact ⟨h.1 stHi, h.2.1 stHi "s1", h.2.2.1 stHi none,
    (h.2.2.2.1 5 stHi envAllFail "s1" (by decide) rfl rfl).2.2,
    h.2.2.2.2 stHi "s1" none none none⟩


theorem setActive_invariant (t : UiTrace) (sid : String)
    (ih : ∀ s, t.sessionId = some s → s ∈ t.issued) :
    ∀ s, (setActive t sid).sessionId = some s → s ∈ (setActive t sid).issued := by
  intro s hs
  by_cases hc : t.sessionId = some sid
  · simp only [setActive, if_pos hc] at hs ⊢
    exact ih s hs
  · simp only [setActive, if_neg hc, Option.some.injEq] at hs
    subst hs
    simp [setActive, if_neg hc]

/-- Claim C9: in every reachable state at most one session is active
(`sessionId` is `none` or a unique value), and whenever it holds a
non-null value a fetch of that session's messages has been issued. -/
theorem claim_C9_active_invariant (t : UiTrace) (h : Reach t) :
    (t.sessionId = none ∨ ∃! sid, t.sessionId = some sid) ∧
    (∀ sid, t.sessionId = some sid → sid ∈ t.issued) := by
  have hmem : ∀ sid, t.sessionId = some sid → sid ∈ t.issued := by
    induction h with
    | mount => intro sid hs; cases hs
    | sessionClick t sid _ ih => exact setActive_invariant t sid ih
    | newChatSuccess t sid _ ih => exact setActive_invariant t sid ih
    | sendCreatesSession t sid _ _ ih => exact setActive_invariant t sid ih
    | deleteActivates t sid _ ih => exact setActive_invariant t sid ih
    | initActivates t sid _ ih => exact setActive_invariant t sid ih
  refine ⟨?_, hmem⟩
  rcases hv : t.sessionId with _ | sid
  · exact Or.inl rfl
  · exact Or.inr ⟨sid, rfl, fun y hy => (Option.some_inj.mp hy).symm⟩

/-- Witness for C9 at the concrete trace mount → click "a". -/
theorem claim_C9_witness :
    "a" ∈ (setActive { sessionId := none, issued := [] } "a").issued :=
  (claim_C9_active_invariant _
      (Reach.sessionClick _ "a" Reach.mount)).2 "a" (by decide)


/-- Claim C1 fails on the code: after switching from A to B before A's
fetch resolves, the late resolution of A's fetch overwrites the list, so
the final displayed messages are A's while B is active — the source has
no stale-response suppression. -/
theorem claim_C1_stale_overwrite :
    (raceRun { sessionId := none, messages := [], pending := [] } raceTrace).sessionId =
      some "B" ∧
    (raceRun { sessionId := none, messages := [], pending := [] } raceTrace).messages =
      msgsA ∧
    msgsA ≠ msgsB := by decide


/-! ### Helper lemmas for the fence extraction -/

theorem isPrefixL_iff (p s : List Char) : isPrefixL p s = true ↔ p <+: s := by
  induction p generalizing s with
  | nil => simp [isPrefixL]
  | cons a as ih =>
      cases s with
      | nil => simp [isPrefixL]
      | cons b bs =>
          by_cases hab : a = b <;>
            simp [isPrefixL, hab, List.cons_prefix_cons, ih]

theorem ticks_prefix_shift (l w : List Char)
    (h : isPrefixL fenceTicks (l ++ '\n' :: w) = true) :
    isPrefixL fenceTicks l = true := by
  rcases l with _ | ⟨x, _ | ⟨y, _ | ⟨z, l⟩⟩⟩ <;>
    rw [isPrefixL_iff] at h ⊢ <;>
    obtain ⟨t, ht⟩ := h <;>
    simp only [fenceTicks, List.cons_append, List.nil_append, List.cons.injEq] at ht
  · exact absurd ht.1 (by decide)
  · exact absurd ht.2.1 (by decide)
  · exact absurd ht.2.2.1 (by decide)
  · obtain ⟨hx, hy, hz, htl⟩ := ht
    subst hx
    subst hy
    subst hz
    exact ⟨l, by simp [fenceTicks]⟩

theorem takeToClose_exact (body w : List Char)
    (hbody : containsSub ('\n' :: fenceTicks) body = false) :
    takeToClose (body ++ '\n' :: (fenceTicks ++ w)) = some body := by
  induction body with
  | nil =>
      have hp : isPrefixL fenceTicks (fenceTicks ++ w) = true :=
        (isPrefixL_iff _ _).mpr (List.prefix_append _ _)
      simp [takeToClose, hp]
  | cons c body ih =>
      rw [containsSub, Bool.or_eq_false_iff] at hbody
      have hcond : ¬(c = '\n' ∧
          isPrefixL fenceTicks (body ++ '\n' :: (fenceTicks ++ w)) = true) := by
        rintro ⟨hc, hp⟩
        have hpb := ticks_prefix_shift body (fenceTicks ++ w) hp
        have : isPrefixL ('\n' :: fenceTicks) (c :: body) = true := by
          subst hc
          simpa [isPrefixL] using hpb
        rw [this] at hbody
        exact absurd hbody.1 (by simp)
      rw [List.cons_append, takeToClose, if_neg hcond, ih hbody.2]
      rfl

theorem takeWhile_no_term (lang Z : List Char)
    (hlang : ∀ c ∈ lang, isLineTerm c = false) :
    (lang ++ '\n' :: Z).takeWhile (fun c => !isLineTerm c) = lang := by
  induction lang with
  | nil => simp [isLineTerm]
  | cons c l ih =>
      have hc : isLineTerm c = false := hlang c (by simp)
      simp only [List.cons_append, List.takeWhile_cons]
      rw [if_pos (by simp [hc])]
      rw [ih fun d hd => hlang d (by simp [hd])]

theorem dropWhile_no_term (lang Z : List Char)
    (hlang : ∀ c ∈ lang, isLineTerm c = false) :
    (lang ++ '\n' :: Z).dropWhile (fun c => !isLineTerm c) = '\n' :: Z := by
  induction lang with
  | nil => simp [isLineTerm]
  | cons c l ih =>
      have hc : isLineTerm c = false := hlang c (by simp)
      simp only [List.cons_append, List.dropWhile_cons]
      rw [if_pos (by simp [hc])]
      exact ih fun d hd => hlang d (by simp [hd])

theorem matchAt_exact (lang body w : List Char)
    (hlang : ∀ c ∈ lang, isLineTerm c = false)
    (hbody : containsSub ('\n' :: fenceTicks) body = false) :
    matchAt (lang ++ '\n' :: (body ++ '\n' :: (fenceTicks ++ w))) =
      some (lang, body) := by
  unfold matchAt
  rw [takeWhile_no_term lang _ hlang, dropWhile_no_term lang _ hlang]
  simp [takeToClose_exact body w hbody]

theorem fenceFirst_skip (pre l : List Char) (hpre : ∀ c ∈ pre, c ≠ btk) :
    fenceFirst (pre ++ l) = fenceFirst l := by
  induction pre with
  | nil => simp
  | cons c p ih =>
      have hc : c ≠ btk := hpre c (by simp)
      have hnp : isPrefixL fenceTicks (c :: (p ++ l)) = true ↔ False := by
        simp only [fenceTicks, isPrefixL, iff_false]
        rw [if_neg fun h => hc h.symm]
        simp
      rw [List.cons_append, fenceFirst, if_neg (by simp [hnp])]
      exact ih fun d hd => hpre d (by simp [hd])

theorem fenceFirst_opener (tail : List Char) (r : List Char × List Char)
    (h : matchAt tail = some r) :
    fenceFirst (fenceTicks ++ tail) = some r := by
  have hp : isPrefixL fenceTicks (fenceTicks ++ tail) = true :=
    (isPrefixL_iff _ _).mpr (List.prefix_append _ _)
  rw [show fenceTicks ++ tail = btk :: (btk :: btk :: tail) from rfl, fenceFirst]
  rw [if_pos (by simpa using hp)]
  simp [h]

/-- Claim C7: for code-flagged messages, rendering extracts the language
as the text between the opening fence and the first newline and the body
as the text between that newline and the closing fence; with no
parseable fence the message still renders as code with empty body and
language tag "text"; a message classified from a response starting with
"data:image/" renders as an image. -/
theorem claim_C7_render (m : Message) :
    (∀ pre lang body post : List Char,
      (∀ c ∈ pre, c ≠ btk) → (∀ c ∈ lang, isLineTerm c = false) →
      containsSub ('\n' :: fenceTicks) body = false →
      m.isImage = false → m.isCode = true →
      m.text.data =
        pre ++ (fenceTicks ++ (lang ++ '\n' :: (body ++ '\n' :: (fenceTicks ++ post)))) →
      renderMessage m = .codeBlock (String.mk lang) (String.mk body)) ∧
    (m.isImage = false → m.isCode = true → fenceFirst m.text.data = none →
      renderMessage m = .codeBlock "text" "") ∧
    (∀ id resp, startsWithS "data:image/" resp = true →
      renderMessage (mkAssistantMessage id resp) = .image resp) := by
  refine ⟨?_, ?_, ?_⟩
  · intro pre lang body post hpre hlang hbody himg hcode htext
    have hmatch : fenceFirst m.text.data = some (lang, body) := by
      rw [htext, fenceFirst_skip pre _ hpre]
      exact fenceFirst_opener _ _ (matchAt_exact lang body post hlang hbody)
    simp [renderMessage, himg, hcode, hmatch]
  · intro himg hcode hnone
    simp [renderMessage, himg, hcode, hnone]
  · intro id resp himg
    simp [renderMessage, mkAssistantMessage, himg]

/-- Witness for C7: the python example extracts language and body, a
fenceless code-flagged message degrades to ("text", ""), and a data-URI
response renders as an image. -/
theorem claim_C7_witness :
    renderMessage (mkAssistantMessage 6 ("```python\nprint(1)\n```")) =
      .codeBlock "python" "print(1)" ∧
    renderMessage (mkAssistantMessage 8 "```x") = .codeBlock "text" "" ∧
    renderMessage (mkAssistantMessage 7 "data:image/png;base64,AAA") =
      .image "data:image/png;base64,AAA" := by
  refine ⟨?_, ?_, ?_⟩
  · exact (claim_C7_render (mkAssistantMessage 6 "```python\nprint(1)\n```")).1
      [] "python".data "print(1)".data []
      (by decide) (by decide) (by decide) (by decide) (by decide) (by decide)
  · exact (claim_C7_render (mkAssistantMessage 8 "```x")).2.1
      (by decide) (by decide) (by decide)
  · exact (claim_C7_render (mkAssistantMessage 7 "data:image/png;base64,AAA")).2.2
      7 "data:image/png;base64,AAA" (by decide)

end APrime
